import Mathlib

/-!
# Verification of the shield-pr finding-synthesis core

Shallow embedding of the algorithmic core of the `shield_pr` repository:

* `shield_pr/models/finding.py` — the `Finding` pydantic value object;
* `shield_pr/chains/synthesis_chain.py` — `SynthesisChain`
  (deduplication / prioritization / summary / confidence);
* `shield_pr/chains/result-parser.py` — the canonical 3-tier `ResultParser`;
* `shield_pr/chains/base.py` and `shield_pr/chains/universal_chain.py` —
  depth-based stage selection;
* `shield_pr/core/review_pipeline.py` — aggregate confidence;
* `shield_pr/detection/confidence.py` — detection signal fusion.

Python strings are modelled as Lean `String`, Python `float` arithmetic as
exact rationals (`ℚ`; every numeric fact proved below is about values at
which the binary floating-point computation is exact, which is noted at the
relevant definitions), Python dicts threaded through the code as insertion
ordered association lists, and raising code as `Except`-valued functions.
-/

namespace ShieldPR

/-- The `Literal["HIGH", "MEDIUM", "LOW"]` type of `Finding.severity`
(`shield_pr/models/finding.py`). -/
inductive Severity where
  | HIGH
  | MEDIUM
  | LOW
deriving DecidableEq, Repr

/-- The string form of a severity, as it is stored on the pydantic model. -/
def Severity.toStr : Severity → String
  | .HIGH => "HIGH"
  | .MEDIUM => "MEDIUM"
  | .LOW => "LOW"

/-- The `Finding` pydantic model (`shield_pr/models/finding.py`): one code
review finding.  `suggestion` defaults to `""` and `line_number` /
`code_snippet` default to `None` exactly as in the source. -/
structure Finding where
  severity : Severity
  category : String
  file_path : String
  line_number : Option Int := none
  description : String
  suggestion : Option String := some ""
  code_snippet : Option String := none
deriving DecidableEq, Repr

/-- Pydantic validation of `Finding(...)` construction: `severity` is a
`Literal["HIGH", "MEDIUM", "LOW"]`, so any other string is rejected with a
`ValidationError`; all remaining fields are plain typed fields with no value
constraints (in particular `description : str` carries no non-emptiness
check).  `none` models a failed construction. -/
def Finding.construct (severity : String) (category : String)
    (file_path : String) (line_number : Option Int) (description : String)
    (suggestion : Option String) (code_snippet : Option String) :
    Option Finding :=
  let sev? : Option Severity :=
    if severity = "HIGH" then some .HIGH
    else if severity = "MEDIUM" then some .MEDIUM
    else if severity = "LOW" then some .LOW
    else none
  match sev? with
  | some sev =>
      some { severity := sev, category := category, file_path := file_path,
             line_number := line_number, description := description,
             suggestion := suggestion, code_snippet := code_snippet }
  | none => none

/-- Python `s.endswith(suffix)`: `suffix` is a suffix of `s` (modelled on
the character lists; `String.endsWith` itself is byte-position based and
does not reduce in the kernel). -/
def pyEndsWith (s suffix : String) : Bool :=
  suffix.data.isSuffixOf s.data

end ShieldPR

namespace ShieldPR.DetectionConfidence

/-- Python truthiness of an `Optional[str]`: `None` and `""` are falsy. -/
def pyTruthy : Option String → Bool
  | none => false
  | some s => !s.isEmpty

/-- Percent formatting used only inside the human-readable `reasoning`
strings (`f"{conf:.2%}"`): the rational rendered as a percentage with two
decimal digits, rounding half away from zero (the reasoning text is not the
subject of any claim below). -/
def percentStr (q : ℚ) : String :=
  let cents : ℤ := Int.floor (q * 10000 + 1/2)
  let whole := cents / 100
  let frac := (cents % 100).toNat
  let fracStr := if frac < 10 then "0" ++ toString frac else toString frac
  toString whole ++ "." ++ fracStr ++ "%"

/-- Function `calculate_confidence` from `shield_pr/detection/confidence.py`:
fuses the extension-based and content-based detection signals into a final
`(platform, confidence, reasoning)` triple. -/
def calculate_confidence (ext_platform : Option String) (ext_confidence : ℚ)
    (content_platform : Option String) (content_confidence : ℚ) :
    Option String × ℚ × String :=
  -- No detection at all
  if ¬ pyTruthy ext_platform ∧ ¬ pyTruthy content_platform then
    (none, 0, "No platform detected from extension or content")
  -- Only extension detected
  else if pyTruthy ext_platform ∧ ¬ pyTruthy content_platform then
    (ext_platform, ext_confidence,
      "Detected from file extension: " ++ percentStr ext_confidence
        ++ " confidence")
  -- Only content detected
  else if pyTruthy content_platform ∧ ¬ pyTruthy ext_platform then
    (content_platform, content_confidence,
      "Detected from content analysis: " ++ percentStr content_confidence
        ++ " confidence")
  -- Both detected - check if they agree
  else if ext_platform = content_platform then
    let combined_confidence := min (ext_confidence + content_confidence * (3/10)) 1
    (ext_platform, combined_confidence,
      "Extension and content agree: " ++ percentStr combined_confidence
        ++ " confidence")
  -- Disagreement - use higher confidence
  else if ext_confidence > content_confidence then
    (ext_platform, ext_confidence,
      "Extension (" ++ (ext_platform.getD "") ++ ": "
        ++ percentStr ext_confidence ++ ") overrides content ("
        ++ (content_platform.getD "") ++ ": "
        ++ percentStr content_confidence ++ ")")
  else
    (content_platform, content_confidence,
      "Content (" ++ (content_platform.getD "") ++ ": "
        ++ percentStr content_confidence ++ ") overrides extension ("
        ++ (ext_platform.getD "") ++ ": "
        ++ percentStr ext_confidence ++ ")")

/-- Function `aggregate_scores` from `shield_pr/detection/confidence.py`: maximum
entry of a platform → score mapping (`max` over `dict.items()`, which scans
in insertion order and keeps the earliest maximal entry). -/
def aggregate_scores (scores : List (String × ℚ)) : Option String × ℚ :=
  match scores with
  | [] => (none, 0)
  | kv :: rest =>
      let best := rest.foldl (fun acc p => if p.2 > acc.2 then p else acc) kv
      (some best.1, best.2)

end ShieldPR.DetectionConfidence

namespace ShieldPR.Difflib

/-!
Model of `difflib.SequenceMatcher(None, a, b).ratio()`, which
`SynthesisChain._are_similar` uses on finding descriptions.  With no junk
predicate and autojunk not in effect (autojunk only activates for second
sequences of length ≥ 200; every description this development evaluates the
ratio on is far shorter), `ratio` is `2 * M / (len(a) + len(b))` where `M`
is the total size of the matching blocks found by the recursive
longest-matching-block decomposition, and `1.0` when both strings are
empty.
-/

/-- Length of the common run of `a` and `b` starting at positions `i`, `j`,
stopped at `j = bhi` and after `fuel` steps (callers pass `fuel = ahi - i`,
so the run is also stopped at `i = ahi`). -/
def matchLenAt (a b : List Char) (bhi : Nat) : Nat → Nat → Nat → Nat
  | 0, _, _ => 0
  | fuel + 1, i, j =>
      if j < bhi then
        match a[i]?, b[j]? with
        | some x, some y =>
            if x = y then matchLenAt a b bhi fuel (i + 1) (j + 1) + 1 else 0
        | _, _ => 0
      else 0

theorem matchLenAt_le (a b : List Char) (bhi : Nat) :
    ∀ (fuel i j : Nat), matchLenAt a b bhi fuel i j ≤ fuel := by
  intro fuel
  induction fuel with
  | zero => intro i j; simp [matchLenAt]
  | succ n ih =>
      intro i j
      simp only [matchLenAt]
      split
      · split
        · split
          · exact Nat.succ_le_succ (ih _ _)
          · exact Nat.zero_le _
        · exact Nat.zero_le _
      · exact Nat.zero_le _

theorem matchLenAt_le_sub (a b : List Char) (bhi : Nat) :
    ∀ (fuel i j : Nat), matchLenAt a b bhi fuel i j ≤ bhi - j := by
  intro fuel
  induction fuel with
  | zero => intro i j; simp [matchLenAt]
  | succ n ih =>
      intro i j
      simp only [matchLenAt]
      split
      · split
        · split
          · have := ih (i + 1) (j + 1)
            omega
          · exact Nat.zero_le _
        · exact Nat.zero_le _
      · exact Nat.zero_le _

/-- Model of `SequenceMatcher.find_longest_match(alo, ahi, blo, bhi)` (no junk):
among all maximal matching blocks `a[i:i+k] = b[j:j+k]` inside the window,
the one with the largest `k`, ties resolved towards the smallest `i` and
then the smallest `j`; `(alo, blo, 0)` when nothing matches.  The scan runs
over start positions in ascending `(i, j)` order and only replaces the
best candidate on a strictly longer match, which realises exactly that
tie-breaking. -/
def findLongestMatch (a b : List Char) (alo ahi blo bhi : Nat) :
    Nat × Nat × Nat :=
  let pairs := (List.range' alo (ahi - alo)).flatMap
    (fun i => (List.range' blo (bhi - blo)).map (fun j => (i, j)))
  pairs.foldl
    (fun best ij =>
      let k := matchLenAt a b bhi (ahi - ij.1) ij.1 ij.2
      if k > best.2.2 then (ij.1, ij.2, k) else best)
    (alo, blo, 0)

/-- Window bounds of the result of `findLongestMatch`, needed for the
termination of the matching-block recursion. -/
theorem findLongestMatch_bounds (a b : List Char) (alo ahi blo bhi : Nat) :
    (findLongestMatch a b alo ahi blo bhi).2.2 ≠ 0 →
      alo ≤ (findLongestMatch a b alo ahi blo bhi).1 ∧
      (findLongestMatch a b alo ahi blo bhi).1 +
        (findLongestMatch a b alo ahi blo bhi).2.2 ≤ ahi ∧
      blo ≤ (findLongestMatch a b alo ahi blo bhi).2.1 ∧
      (findLongestMatch a b alo ahi blo bhi).2.1 +
        (findLongestMatch a b alo ahi blo bhi).2.2 ≤ bhi := by
  unfold findLongestMatch
  generalize hp : (List.range' alo (ahi - alo)).flatMap
    (fun i => (List.range' blo (bhi - blo)).map (fun j => (i, j))) = pairs
  have hmem : ∀ ij ∈ pairs, alo ≤ ij.1 ∧ ij.1 < ahi ∧ blo ≤ ij.2 ∧ ij.2 < bhi := by
    intro ij hij
    rw [← hp] at hij
    simp only [List.mem_flatMap, List.mem_map, List.mem_range'] at hij
    obtain ⟨i, hi, j, hj, rfl⟩ := hij
    omega
  -- invariant over the fold
  suffices h : ∀ (best : Nat × Nat × Nat),
      (best.2.2 ≠ 0 → alo ≤ best.1 ∧ best.1 + best.2.2 ≤ ahi ∧
        blo ≤ best.2.1 ∧ best.2.1 + best.2.2 ≤ bhi) →
      ((pairs.foldl
        (fun best ij =>
          let k := matchLenAt a b bhi (ahi - ij.1) ij.1 ij.2
          if k > best.2.2 then (ij.1, ij.2, k) else best)
        best).2.2 ≠ 0 →
        alo ≤ (pairs.foldl
          (fun best ij =>
            let k := matchLenAt a b bhi (ahi - ij.1) ij.1 ij.2
            if k > best.2.2 then (ij.1, ij.2, k) else best)
          best).1 ∧
        (pairs.foldl _ best).1 + (pairs.foldl _ best).2.2 ≤ ahi ∧
        blo ≤ (pairs.foldl _ best).2.1 ∧
        (pairs.foldl _ best).2.1 + (pairs.foldl _ best).2.2 ≤ bhi) by
    exact h (alo, blo, 0) (by simp)
  clear hp
  induction pairs with
  | nil => intro best hbest; simpa using hbest
  | cons ij rest ih =>
      intro best hbest
      simp only [List.foldl_cons]
      have hij := hmem ij (List.mem_cons_self _ _)
      apply ih (fun p hp' => hmem p (List.mem_cons_of_mem _ hp'))
      intro hne
      by_cases hk : matchLenAt a b bhi (ahi - ij.1) ij.1 ij.2 > best.2.2
      · simp only [hk, if_pos] at hne ⊢
        refine ⟨hij.1, ?_, hij.2.2.1, ?_⟩
        · have := matchLenAt_le a b bhi (ahi - ij.1) ij.1 ij.2
          omega
        · have := matchLenAt_le_sub a b bhi (ahi - ij.1) ij.1 ij.2
          omega
      · simp only [hk, if_neg, if_false] at hne ⊢
        exact hbest hne

/-- Model of the `SequenceMatcher.get_matching_blocks` total matched size on the window
`a[alo:ahi]` / `b[blo:bhi]`: size of the longest matching block plus the
totals of the sub-windows to its left and to its right. -/
def matchTotal (a b : List Char) (alo ahi blo bhi : Nat) : Nat :=
  match hm : findLongestMatch a b alo ahi blo bhi with
  | (i, j, k) =>
    if hk : k = 0 then 0
    else
      have hb := findLongestMatch_bounds a b alo ahi blo bhi (by rw [hm]; exact hk)
      have h1 : alo ≤ i := by rw [hm] at hb; exact hb.1
      have h2 : i + k ≤ ahi := by rw [hm] at hb; exact hb.2.1
      have h3 : blo ≤ j := by rw [hm] at hb; exact hb.2.2.1
      have h4 : j + k ≤ bhi := by rw [hm] at hb; exact hb.2.2.2
      matchTotal a b alo i blo j + k + matchTotal a b (i + k) ahi (j + k) bhi
termination_by (ahi - alo) + (bhi - blo)
decreasing_by
  · omega
  · omega

/-- Model of `SequenceMatcher(None, s1, s2).ratio()` as an exact rational:
`2 * M / (len(a) + len(b))`, or `1` when both strings are empty (matching
`difflib._calculate_ratio`). -/
def descSimilarity (s1 s2 : String) : ℚ :=
  let a := s1.data
  let b := s2.data
  let matchCount := matchTotal a b 0 a.length 0 b.length
  if a.length + b.length = 0 then 1
  else 2 * (matchCount : ℚ) / ((a.length : ℚ) + (b.length : ℚ))

end ShieldPR.Difflib

namespace ShieldPR.SynthesisChain

open ShieldPR

/-- Constant `SynthesisChain.SEVERITY_ORDER = {"HIGH": 0, "MEDIUM": 1, "LOW": 2}`
(`shield_pr/chains/synthesis_chain.py` line 19), read as the total map it is
on the validated `severity` literal. -/
def SEVERITY_ORDER : Severity → Nat
  | .HIGH => 0
  | .MEDIUM => 1
  | .LOW => 2

/-- Python truthiness of `Optional[int]`: `None` and `0` are falsy (used by
the `if finding1.line_number and finding2.line_number:` guard). -/
def pyIntTruthy : Option Int → Bool
  | none => false
  | some n => n ≠ 0

/-- Method `SynthesisChain._are_similar`: same `category` and `file_path` required;
then either description similarity strictly above `0.8` or truthy line
numbers at most 5 apart. -/
def _are_similar (finding1 finding2 : Finding) : Bool :=
  -- Same category and file
  if finding1.category ≠ finding2.category then false
  else if finding1.file_path ≠ finding2.file_path then false
  else
    -- Similar descriptions (> 0.8 similarity)
    let desc_similarity :=
      Difflib.descSimilarity finding1.description finding2.description
    if desc_similarity > 8/10 then true
    else
      -- Similar line numbers (within 5 lines)
      if pyIntTruthy finding1.line_number && pyIntTruthy finding2.line_number then
        match finding1.line_number, finding2.line_number with
        | some l1, some l2 => if (l1 - l2).natAbs ≤ 5 then true else false
        | _, _ => false
      else false

/-- Python `list.index(old)` followed by `list[idx] = new`: replace the first
element equal to `old` (it is always present where the source calls this,
since `seen` and `deduplicated` hold the same elements). -/
def replaceFirst : List Finding → Finding → Finding → List Finding
  | [], _, _ => []
  | x :: xs, old, new =>
      if x = old then new :: xs else x :: replaceFirst xs old new

/-- One iteration of the `_deduplicate` loop body on the state
`(deduplicated, seen)`: scan `seen` for the first similar representative;
on a match replace it in both lists when the incoming finding has strictly
higher severity priority, otherwise drop the incoming finding; with no
match append the incoming finding to both lists. -/
def dedupStep (st : List Finding × List Finding) (finding : Finding) :
    List Finding × List Finding :=
  match st.2.find? (fun seen_finding => _are_similar finding seen_finding) with
  | some seen_finding =>
      if SEVERITY_ORDER finding.severity < SEVERITY_ORDER seen_finding.severity then
        (replaceFirst st.1 seen_finding finding,
         replaceFirst st.2 seen_finding finding)
      else st
  | none => (st.1 ++ [finding], st.2 ++ [finding])

/-- Method `SynthesisChain._deduplicate`: single left-to-right scan, first match
wins, higher severity replaces the matched representative. -/
def _deduplicate (findings : List Finding) : List Finding :=
  if findings.isEmpty then [] else (findings.foldl dedupStep ([], [])).1

/-- The composite sort key of `_prioritize`:
`(SEVERITY_ORDER[f.severity], f.category, f.file_path)`. -/
def sortKey (f : Finding) : Nat × String × String :=
  (SEVERITY_ORDER f.severity, f.category, f.file_path)

/-- Non-strict lexicographic comparison of the composite sort keys, i.e.
the comparison Python's tuple ordering performs inside `sorted`. -/
def findingKeyLE (f g : Finding) : Bool :=
  decide (SEVERITY_ORDER f.severity < SEVERITY_ORDER g.severity ∨
    (SEVERITY_ORDER f.severity = SEVERITY_ORDER g.severity ∧
      (f.category < g.category ∨
        (f.category = g.category ∧ f.file_path ≤ g.file_path))))

/-- Method `SynthesisChain._prioritize`: Python's stable `sorted` by the composite
key, modelled by the stable `List.mergeSort`. -/
def _prioritize (findings : List Finding) : List Finding :=
  findings.mergeSort findingKeyLE

/-- Python `str.capitalize()`: first character upper-cased, the rest lower-cased. -/
def pyCapitalize (s : String) : String :=
  match s.data with
  | [] => ""
  | c :: rest => String.mk (c.toUpper :: rest.map Char.toLower)

/-- The per-category tally dict built by `_generate_summary` (Python dict:
first occurrence fixes the position, later hits bump the count in place). -/
def bumpCategory : List (String × Nat) → String → List (String × Nat)
  | [], c => [(c, 1)]
  | (k, n) :: rest, c =>
      if k = c then (k, n + 1) :: rest else (k, n) :: bumpCategory rest c

/-- Method `SynthesisChain._generate_summary`: platform prefix, severity breakdown
clause and top-3 category clause (stable descending sort on counts, exactly
`sorted(categories.items(), key=count, reverse=True)[:3]`). -/
def _generate_summary (findings : List Finding) (platform : String) : String :=
  if findings.isEmpty then
    pyCapitalize platform ++ " code review: No issues found. Code looks good!"
  else
    let high := (findings.filter (fun f => f.severity = Severity.HIGH)).length
    let medium := (findings.filter (fun f => f.severity = Severity.MEDIUM)).length
    let low := (findings.filter (fun f => f.severity = Severity.LOW)).length
    let categories := findings.foldl (fun acc f => bumpCategory acc f.category) []
    let summary_parts := [pyCapitalize platform ++ " code review:"]
    let severity_parts : List String :=
      (if high > 0 then [toString high ++ " high severity"] else []) ++
      (if medium > 0 then [toString medium ++ " medium severity"] else []) ++
      (if low > 0 then [toString low ++ " low severity"] else [])
    let summary_parts := summary_parts ++
      (if ¬ severity_parts.isEmpty then
        ["Found " ++ String.intercalate ", " severity_parts ++ " issue(s)."]
      else [])
    let top_categories :=
      (categories.mergeSort (fun x y => decide (x.2 ≥ y.2))).take 3
    let summary_parts := summary_parts ++
      (if ¬ top_categories.isEmpty then
        ["Main areas: " ++ String.intercalate ", "
          (top_categories.map (fun cc => cc.1 ++ " (" ++ toString cc.2 ++ ")"))
          ++ "."]
      else [])
    String.intercalate " " summary_parts

/-- The `ReviewResult` pydantic model (`shield_pr/models/review_result.py`).
Pydantic additionally validates `0 ≤ confidence ≤ 1` at construction; no
claim below depends on that bound, so the model keeps the plain field. -/
structure ReviewResult where
  platform : String
  findings : List Finding := []
  summary : String
  confidence : ℚ
deriving DecidableEq, Repr

/-- Method `SynthesisChain.synthesize`: combine the two finding lists (platform
first), deduplicate, prioritize, summarise, and take the minimum of the two
input confidences. -/
def synthesize (platform_result universal_result : ReviewResult) :
    ReviewResult :=
  -- Combine findings from both sources
  let all_findings := platform_result.findings ++ universal_result.findings
  -- Deduplicate similar findings
  let deduplicated := _deduplicate all_findings
  -- Prioritize by severity and category
  let prioritized := _prioritize deduplicated
  -- Generate comprehensive summary
  let summary := _generate_summary prioritized platform_result.platform
  -- Calculate combined confidence
  let confidence := min platform_result.confidence universal_result.confidence
  { platform := platform_result.platform, findings := prioritized,
    summary := summary, confidence := confidence }

end ShieldPR.SynthesisChain

namespace ShieldPR.ResultParser

open ShieldPR

/-!
Embedding of the canonical 3-tier `ResultParser`
(`shield_pr/chains/result-parser.py`).  Two collaborators are external
libraries and enter as function parameters: `tier1` is
`langchain.output_parsers.PydanticOutputParser(pydantic_object=Finding).parse`
(returns a `Finding` or raises), and `jsonLoads` is `json.loads` together
with `findingOfJson` for `Finding(**item)` construction from a parsed JSON
value (raises on non-dict input or failed field validation).  Stage output
values reaching the parser are the strings stored under `"<stage>_result"`
keys by `BaseReviewChain._execute_stages`, so the `isinstance(value, str)`
test in tier 3 is identically true in this model.
-/

/-- The shape of a `json.loads` result as far as the parser inspects it:
a JSON array, a JSON object, or anything else. -/
inductive PyJson where
  | list (items : List PyJson)
  | dict (fields : List (String × PyJson))
  | other
deriving Inhabited

/-- Python `text.find(c)`: index of the first occurrence, `None` for the
`-1` sentinel. -/
def pyFind (s : String) (c : Char) : Option Nat :=
  s.data.findIdx? (· = c)

/-- Python `text.rfind(c)`: index of the last occurrence, `None` for the
`-1` sentinel. -/
def pyRFind (s : String) (c : Char) : Option Nat :=
  match s.data.reverse.findIdx? (· = c) with
  | some k => some (s.data.length - 1 - k)
  | none => none

/-- The `for item in data: findings.append(Finding(**item))` loop: a raised
`ValidationError` aborts the loop, and the appends made before it survive
through the enclosing `except Exception: pass`. -/
def buildFromItems (findingOfJson : PyJson → Except Unit Finding) :
    List PyJson → List Finding
  | [] => []
  | x :: xs =>
      match findingOfJson x with
      | .ok f => f :: buildFromItems findingOfJson xs
      | .error _ => []

/-- Method `ResultParser._manual_json_extract`: find the first `[` (else the first
`{`), slice up to the matching last `]`/`}`, `json.loads` the slice and
build findings.  Its whole body is wrapped in `try ... except Exception:
pass` around a local `findings` list, so the function itself never raises:
its result is always `Except.ok`. -/
def _manual_json_extract (jsonLoads : String → Except Unit PyJson)
    (findingOfJson : PyJson → Except Unit Finding)
    (text : String) (file_path : String) : Except Unit (List Finding) :=
  Except.ok <|
    match (pyFind text '[').orElse (fun _ => pyFind text '{') with
    | none => []
    | some start =>
        let close := if text.data[start]? = some '[' then ']' else '}'
        match pyRFind text close with
        | none => []
        | some e =>
            let json_str := String.mk ((text.data.drop start).take (e + 1 - start))
            match jsonLoads json_str with
            | .error _ => []
            | .ok (.list items) => buildFromItems findingOfJson items
            | .ok (.dict fields) =>
                match findingOfJson (.dict fields) with
                | .ok f => [f]
                | .error _ => []
            | .ok .other => []

/-- The per-stage-output body of `ResultParser.extract_findings`:
tier 1 (strict parse), on exception tier 2 (`_manual_json_extract`), on a
further exception tier 3 (the generic LOW/"analysis" finding for non-empty
text longer than 10 characters).  Tier 2 never raises (see
`_manual_json_extract`), so the tier-3 branch is dead code in the source;
it is embedded verbatim nonetheless. -/
def extractFromValue (tier1 : String → Except Unit Finding)
    (jsonLoads : String → Except Unit PyJson)
    (findingOfJson : PyJson → Except Unit Finding)
    (value : String) (file_path : String) : List Finding :=
  match tier1 value with
  | .ok parsed => [parsed]
  | .error _ =>
      match _manual_json_extract jsonLoads findingOfJson value file_path with
      | .ok extracted => extracted
      | .error _ =>
          if value ≠ "" ∧ value.length > 10 then
            [{ severity := .LOW, category := "analysis",
               file_path := file_path, description := value.take 500,
               suggestion := some "Manual review recommended" }]
          else []

/-- Method `ResultParser.extract_findings`: accumulate the per-stage extractions
over every context entry whose key ends with `"_result"`, in insertion
order. -/
def extract_findings (tier1 : String → Except Unit Finding)
    (jsonLoads : String → Except Unit PyJson)
    (findingOfJson : PyJson → Except Unit Finding)
    (result : List (String × String)) (file_path : String) : List Finding :=
  result.foldl
    (fun findings kv =>
      if pyEndsWith kv.1 "_result" then
        findings ++ extractFromValue tier1 jsonLoads findingOfJson kv.2 file_path
      else findings)
    []

/-- Method `ResultParser.calculate_confidence`
(`shield_pr/chains/result-parser.py` lines 124–144): executed-stage count
over the expected-stage count for the depth, capped at `0.95`, and `0.5`
when `depth_stages.get(depth, [])` is empty. -/
def calculate_confidence (result : List (String × String)) (depth : String)
    (depth_stages : List (String × List String)) : ℚ :=
  let total_stages := ((depth_stages.lookup depth).getD []).length
  let executed_stages := (result.filter (fun kv => pyEndsWith kv.1 "_result")).length
  if total_stages = 0 then 1/2
  else min (95/100) ((executed_stages : ℚ) / (total_stages : ℚ))

end ShieldPR.ResultParser

namespace ShieldPR.BaseReviewChain

/-- Constant `BaseReviewChain.DEPTH_STAGES` (`shield_pr/chains/base.py` lines
18–29). -/
def DEPTH_STAGES : List (String × List String) :=
  [("quick", ["architecture", "improvements"]),
   ("standard", ["architecture", "platform_issues", "tests", "improvements"]),
   ("deep", ["architecture", "platform_issues", "tests", "improvements",
             "security_audit", "performance"])]

/-- Method `BaseReviewChain._select_stages_by_depth`:
`DEPTH_STAGES.get(self.depth, DEPTH_STAGES["standard"])` (the `"standard"`
key is always present, so `getD []` never supplies the default). -/
def _select_stages_by_depth (depth : String) : List String :=
  match DEPTH_STAGES.lookup depth with
  | some stages => stages
  | none => (DEPTH_STAGES.lookup "standard").getD []

end ShieldPR.BaseReviewChain

namespace ShieldPR.UniversalReviewChain

/-- Method `UniversalReviewChain._select_stages_by_depth`
(`shield_pr/chains/universal_chain.py` lines 85–98): the trailing branch is
a bare `else:  # deep`, so every depth other than `"quick"` and
`"standard"` — including unrecognized ones — selects all three stages. -/
def _select_stages_by_depth (depth : String) : List String :=
  if depth = "quick" then ["security"]
  else if depth = "standard" then ["security", "readability"]
  else ["security", "readability", "best_practices"]

end ShieldPR.UniversalReviewChain

namespace ShieldPR.ReviewPipeline

/-- Python `round(x, 2)` on the exact value: scale by 100 and round half to
even.  (CPython rounds the decimal rendering of the binary double; this
agrees with rounding the exact value whenever the double is exact, as it is
at every input the theorems below evaluate it on, e.g.
`round(0.125, 2) = 0.12`.) -/
def pyRound2 (q : ℚ) : ℚ :=
  let scaled := q * 100
  let f : ℤ := Int.floor scaled
  let r := scaled - (f : ℚ)
  let n : ℤ :=
    if r < 1/2 then f
    else if r > 1/2 then f + 1
    else if f % 2 = 0 then f else f + 1
  (n : ℚ) / 100

/-- Method `ReviewPipeline._calculate_aggregate_confidence`
(`shield_pr/core/review_pipeline.py` lines 368–385): `0.5` for no findings
or zero files, else `round(min(len(findings) / files_count / 2, 1.0), 2)`.
The findings are typed `List[Any]` in the source and only their count is
used, hence the type parameter. -/
def _calculate_aggregate_confidence {α : Type} (findings : List α)
    (files_count : Nat) : ℚ :=
  if findings.isEmpty ∨ files_count = 0 then 1/2
  else pyRound2 (min ((findings.length : ℚ) / (files_count : ℚ) / 2) 1)

end ShieldPR.ReviewPipeline

namespace ShieldPR

open ShieldPR

/-! ## Claim theorems -/

/-- C3 counterexample: `"full"` is not one of `"quick"`/`"standard"`/
`"deep"`, yet the universal chain's stage selection at depth `"full"` is
its full 3-stage list, not its 2-stage `"standard"` subset. -/
theorem universal_depth_fallback_counterexample :
    ¬ ("full" = "quick" ∨ "full" = "standard" ∨ "full" = "deep") ∧
    UniversalReviewChain._select_stages_by_depth "full"
      = ["security", "readability", "best_practices"] ∧
    UniversalReviewChain._select_stages_by_depth "standard"
      = ["security", "readability"] ∧
    UniversalReviewChain._select_stages_by_depth "full"
      ≠ UniversalReviewChain._select_stages_by_depth "standard" := by
  refine ⟨by decide, rfl, rfl, by decide⟩

/-- C3 (amended): for every depth string outside
`{"quick", "standard", "deep"}`, a platform chain falls back to its 4-stage
`"standard"` subset, while the universal chain selects its full 3-stage
list (its `else` branch covers `"deep"` and every unrecognized depth
alike). -/
theorem select_stages_unrecognized_depth (d : String)
    (hq : d ≠ "quick") (hs : d ≠ "standard") (hd : d ≠ "deep") :
    BaseReviewChain._select_stages_by_depth d
      = ["architecture", "platform_issues", "tests", "improvements"] ∧
    UniversalReviewChain._select_stages_by_depth d
      = ["security", "readability", "best_practices"] := by
  have hq' : (d == "quick") = false := beq_eq_false_iff_ne.mpr hq
  have hs' : (d == "standard") = false := beq_eq_false_iff_ne.mpr hs
  have hd' : (d == "deep") = false := beq_eq_false_iff_ne.mpr hd
  constructor
  · simp [BaseReviewChain._select_stages_by_depth, BaseReviewChain.DEPTH_STAGES,
      List.lookup, hq', hs', hd']
  · simp [UniversalReviewChain._select_stages_by_depth, hq, hs]

/-- C3 witness: the amended fallback at the concrete unrecognized depth
`"exhaustive"`. -/
theorem select_stages_unrecognized_depth_witness :
    BaseReviewChain._select_stages_by_depth "exhaustive"
      = ["architecture", "platform_issues", "tests", "improvements"] ∧
    UniversalReviewChain._select_stages_by_depth "exhaustive"
      = ["security", "readability", "best_practices"] :=
  select_stages_unrecognized_depth "exhaustive" (by decide) (by decide) (by decide)

/-- C8: when both detection signals are present (truthy) and name different
platforms, signal fusion returns the pair with the strictly higher
confidence, and the content-based pair on an exact tie. -/
theorem fusion_disagreement_prefers_higher_confidence
    (ep cp : String) (ec cc : ℚ)
    (hep : ep ≠ "") (hcp : cp ≠ "") (hne : ep ≠ cp) :
    (ec > cc →
      (DetectionConfidence.calculate_confidence (some ep) ec (some cp) cc).1
          = some ep ∧
      (DetectionConfidence.calculate_confidence (some ep) ec (some cp) cc).2.1
          = ec) ∧
    (cc > ec →
      (DetectionConfidence.calculate_confidence (some ep) ec (some cp) cc).1
          = some cp ∧
      (DetectionConfidence.calculate_confidence (some ep) ec (some cp) cc).2.1
          = cc) ∧
    (ec = cc →
      (DetectionConfidence.calculate_confidence (some ep) ec (some cp) cc).1
          = some cp ∧
      (DetectionConfidence.calculate_confidence (some ep) ec (some cp) cc).2.1
          = cc) := by
  have hepb : (String.isEmpty ep) = false := by
    rw [Bool.eq_false_iff]
    intro h
    exact hep ((String.isEmpty_iff ep).mp h)
  have hcpb : (String.isEmpty cp) = false := by
    rw [Bool.eq_false_iff]
    intro h
    exact hcp ((String.isEmpty_iff cp).mp h)
  simp only [DetectionConfidence.calculate_confidence, DetectionConfidence.pyTruthy,
    hepb, hcpb, Bool.not_false, not_true, Option.some.injEq, hne, false_and,
    and_false, if_false, if_neg, ite_false, ite_true]
  refine ⟨fun h => ?_, fun h => ?_, fun h => ?_⟩
  · rw [if_pos h]
    exact ⟨rfl, rfl⟩
  · rw [if_neg (by exact not_lt_of_gt h)]
    exact ⟨rfl, rfl⟩
  · rw [if_neg (by rw [h]; exact lt_irrefl cc)]
    exact ⟨rfl, rfl⟩

/-- C8 witness: an exact tie between extension signal `android` and content
signal `backend` at confidence `0.5` is resolved to the content pair. -/
theorem fusion_disagreement_witness :
    (DetectionConfidence.calculate_confidence
        (some "android") (1/2) (some "backend") (1/2)).1 = some "backend" ∧
    (DetectionConfidence.calculate_confidence
        (some "android") (1/2) (some "backend") (1/2)).2.1 = 1/2 :=
  (fusion_disagreement_prefers_higher_confidence "android" "backend" (1/2) (1/2)
    (by decide) (by decide) (by decide)).2.2 rfl

/-- C9 counterexample: constructing a `Finding` with an empty `description`
succeeds (`description : str` carries no non-emptiness validation), refuting
"construction fails whenever description is empty". -/
theorem finding_empty_description_accepted :
    (Finding.construct "LOW" "analysis" "app.py" none "" none none).isSome
      = true := by
  decide

/-- C9 (amended): `Finding` construction succeeds exactly when `severity`
is one of the three literals `"HIGH"`, `"MEDIUM"`, `"LOW"`; `description`
is required but may be empty. -/
theorem finding_construct_iff_valid_severity (sev cat fp : String)
    (ln : Option Int) (desc : String) (sug snip : Option String) :
    (Finding.construct sev cat fp ln desc sug snip).isSome
      ↔ (sev = "HIGH" ∨ sev = "MEDIUM" ∨ sev = "LOW") := by
  by_cases h1 : sev = "HIGH"
  · simp [Finding.construct, h1]
  · by_cases h2 : sev = "MEDIUM"
    · simp [Finding.construct, h1, h2]
    · by_cases h3 : sev = "LOW"
      · simp [Finding.construct, h1, h2, h3]
      · simp [Finding.construct, h1, h2, h3]

end ShieldPR

namespace ShieldPR

/-- C5: the canonical parser's confidence is the executed-stage count over
the expected-stage count for the depth, capped at `0.95` and therefore
strictly below `1`; it is `0.5` whenever `depth_stages.get(depth, [])` is
empty — i.e. when the depth is unrecognized or its stage list is empty. -/
theorem parser_confidence_formula (result : List (String × String))
    (depth : String) (depth_stages : List (String × List String)) :
    (((depth_stages.lookup depth).getD []) = [] →
      ResultParser.calculate_confidence result depth depth_stages = 1/2) ∧
    (((depth_stages.lookup depth).getD []) ≠ [] →
      ResultParser.calculate_confidence result depth depth_stages
        = min (95/100)
            (((result.filter (fun kv => pyEndsWith kv.1 "_result")).length : ℚ)
              / (((depth_stages.lookup depth).getD []).length : ℚ)) ∧
      ResultParser.calculate_confidence result depth depth_stages < 1) := by
  constructor
  · intro h
    simp [ResultParser.calculate_confidence, h]
  · intro h
    have hlen : ((depth_stages.lookup depth).getD []).length ≠ 0 := by
      simpa [List.length_eq_zero] using h
    refine ⟨by simp [ResultParser.calculate_confidence, hlen], ?_⟩
    have hle : ResultParser.calculate_confidence result depth depth_stages
        ≤ 95/100 := by
      simp only [ResultParser.calculate_confidence, hlen, if_neg hlen]
      exact min_le_left _ _
    calc ResultParser.calculate_confidence result depth depth_stages
        ≤ 95/100 := hle
      _ < 1 := by norm_num

/-- C5 witness: with one executed stage out of the two expected for
`"standard"`, the confidence is `min(0.95, 1/2) = 1/2 < 1`; at the
unrecognized depth `"turbo"` it is `0.5`. -/
theorem parser_confidence_formula_witness :
    (([("standard", ["architecture", "tests"])].lookup "turbo"
        |>.getD (α := List String) []) = [] ∧
      ResultParser.calculate_confidence [("architecture_result", "ok")] "turbo"
        [("standard", ["architecture", "tests"])] = 1/2) ∧
    (([("standard", ["architecture", "tests"])].lookup "standard"
        |>.getD (α := List String) []) ≠ [] ∧
      ResultParser.calculate_confidence [("architecture_result", "ok")] "standard"
        [("standard", ["architecture", "tests"])] < 1) :=
  ⟨⟨by decide,
    (parser_confidence_formula [("architecture_result", "ok")] "turbo"
      [("standard", ["architecture", "tests"])]).1 (by decide)⟩,
   ⟨by decide,
    ((parser_confidence_formula [("architecture_result", "ok")] "standard"
      [("standard", ["architecture", "tests"])]).2 (by decide)).2⟩⟩

/-- C4 counterexample: for 1 finding across 4 files the pipeline's
aggregate confidence is `round(0.125, 2) = 0.12`, not the claimed
`min(1/4/2, 1.0) = 0.125` — the claim omits the `round(..., 2)` applied by
the source (Python's banker's rounding sends the exact tie `0.125` down to
`0.12`). -/
theorem aggregate_confidence_rounding_counterexample :
    ReviewPipeline._calculate_aggregate_confidence [(0 : Nat)] 4 = 12/100 ∧
    ReviewPipeline._calculate_aggregate_confidence [(0 : Nat)] 4
      ≠ min ((1 : ℚ)/4/2) 1 := by
  have h : ReviewPipeline._calculate_aggregate_confidence [(0 : Nat)] 4
      = 12/100 := by
    simp only [ReviewPipeline._calculate_aggregate_confidence,
      ReviewPipeline.pyRound2]
    norm_num
  exact ⟨h, by rw [h]; norm_num⟩

/-- C4 (amended): for a non-empty finding list and a positive file count
the aggregate confidence is `round(min(len(findings)/files_count/2, 1), 2)`
with round-half-to-even; in particular 4 findings across 2 files give
exactly `1.0`, while 1 finding across 4 files gives `0.12` (not `0.125`). -/
theorem aggregate_confidence_formula {α : Type} (findings : List α)
    (files_count : Nat) (h1 : findings ≠ []) (h2 : files_count ≠ 0) :
    ReviewPipeline._calculate_aggregate_confidence findings files_count
      = ReviewPipeline.pyRound2
          (min ((findings.length : ℚ) / (files_count : ℚ) / 2) 1) ∧
    ReviewPipeline._calculate_aggregate_confidence [0, 1, 2, 3] 2 = 1 ∧
    ReviewPipeline._calculate_aggregate_confidence [0] 4 = 12/100 := by
  refine ⟨?_, ?_, ?_⟩
  · have hne : ¬ (findings.isEmpty ∨ files_count = 0) := by
      simp [List.isEmpty_iff, h1, h2]
    simp only [ReviewPipeline._calculate_aggregate_confidence]
    rw [if_neg hne]
  · simp only [ReviewPipeline._calculate_aggregate_confidence,
      ReviewPipeline.pyRound2]
    norm_num
  · simp only [ReviewPipeline._calculate_aggregate_confidence,
      ReviewPipeline.pyRound2]
    norm_num

/-- C4 witness: the amended formula applied to 4 findings across 2 files,
where it evaluates to exactly `1.0`. -/
theorem aggregate_confidence_formula_witness :
    ((0 : Nat) :: [1, 2, 3] ≠ []) ∧
    ReviewPipeline._calculate_aggregate_confidence [(0 : Nat), 1, 2, 3] 2
      = ReviewPipeline.pyRound2
          (min ((([(0 : Nat), 1, 2, 3]).length : ℚ) / ((2 : Nat) : ℚ) / 2) 1) :=
  ⟨by decide, (aggregate_confidence_formula [0, 1, 2, 3] 2 (by decide) (by decide)).1⟩

end ShieldPR

namespace ShieldPR.ResultParser

/-- Generalized fold state of `extract_findings`: the accumulator is
prepended to the extraction of the remaining entries. -/
theorem extract_foldl_append (tier1 : String → Except Unit Finding)
    (jsonLoads : String → Except Unit PyJson)
    (findingOfJson : PyJson → Except Unit Finding)
    (result : List (String × String)) (file_path : String) :
    ∀ acc : List Finding,
      result.foldl
        (fun findings kv =>
          if pyEndsWith kv.1 "_result" then
            findings ++ extractFromValue tier1 jsonLoads findingOfJson kv.2 file_path
          else findings) acc
      = acc ++ result.foldl
          (fun findings kv =>
            if pyEndsWith kv.1 "_result" then
              findings ++ extractFromValue tier1 jsonLoads findingOfJson kv.2 file_path
            else findings) [] := by
  induction result with
  | nil => intro acc; simp
  | cons kv rest ih =>
      intro acc
      simp only [List.foldl_cons]
      rw [ih, ih (if pyEndsWith kv.1 "_result" then
        [] ++ extractFromValue tier1 jsonLoads findingOfJson kv.2 file_path else [])]
      cases h : pyEndsWith kv.1 "_result" <;> simp [h]

/-- Unfolding of `extract_findings` over the first context entry. -/
theorem extract_findings_cons (tier1 : String → Except Unit Finding)
    (jsonLoads : String → Except Unit PyJson)
    (findingOfJson : PyJson → Except Unit Finding)
    (kv : String × String) (rest : List (String × String))
    (file_path : String) :
    extract_findings tier1 jsonLoads findingOfJson (kv :: rest) file_path
      = (if pyEndsWith kv.1 "_result" then
          extractFromValue tier1 jsonLoads findingOfJson kv.2 file_path
        else [])
        ++ extract_findings tier1 jsonLoads findingOfJson rest file_path := by
  simp only [extract_findings, List.foldl_cons]
  rw [extract_foldl_append]
  cases h : pyEndsWith kv.1 "_result" <;> simp [h]

end ShieldPR.ResultParser

namespace ShieldPR

/-- C6: when no tier of the canonical parser extracts anything from any
`"<stage>_result"` entry, `extract_findings` returns the empty list — no
synthetic "no issues" finding is injected (unlike the regex-segmentation
parser in `result_parser.py`). -/
theorem extract_findings_no_injection (tier1 : String → Except Unit Finding)
    (jsonLoads : String → Except Unit ResultParser.PyJson)
    (findingOfJson : ResultParser.PyJson → Except Unit Finding)
    (result : List (String × String)) (file_path : String)
    (h : ∀ kv ∈ result, pyEndsWith kv.1 "_result" = true →
      ResultParser.extractFromValue tier1 jsonLoads findingOfJson kv.2 file_path
        = []) :
    ResultParser.extract_findings tier1 jsonLoads findingOfJson result file_path
      = [] := by
  induction result with
  | nil => rfl
  | cons kv rest ih =>
      rw [ResultParser.extract_findings_cons]
      rw [ih (fun kv' h' hres => h kv' (List.mem_cons_of_mem _ h') hres)]
      cases hkv : pyEndsWith kv.1 "_result"
      · simp
      · simp [h kv (List.mem_cons_self _ _) hkv]

/-- C6 witness: a context whose only stage entry holds short non-JSON text
(and a failing strict parser) yields the empty finding list. -/
theorem extract_findings_no_injection_witness :
    (∀ kv ∈ [("code", "x"), ("security_result", "hi")],
      pyEndsWith (kv : String × String).1 "_result" = true →
      ResultParser.extractFromValue
        (fun _ => Except.error ()) (fun _ => Except.error ())
        (fun _ => Except.error ()) kv.2 "a.py" = []) ∧
    ResultParser.extract_findings
      (fun _ => Except.error ()) (fun _ => Except.error ())
      (fun _ => Except.error ())
      [("code", "x"), ("security_result", "hi")] "a.py" = [] :=
  ⟨by decide,
   extract_findings_no_injection _ _ _ _ _ (by decide)⟩

/-- C2 (code bug): on a stage output of exactly 11 non-JSON characters the
parser returns no finding at all, because `_manual_json_extract` swallows
its own exceptions and returns an (empty) list, so the tier-3 generic
LOW/"analysis" finding — promised by the class docstring and by
`test_extract_findings_tier3_fallback_generic` — is dead code. -/
theorem tier3_dead_code (tier1 : String → Except Unit Finding)
    (jsonLoads : String → Except Unit ResultParser.PyJson)
    (findingOfJson : ResultParser.PyJson → Except Unit Finding)
    (h : tier1 "hello world" = Except.error ()) :
    ResultParser.extract_findings tier1 jsonLoads findingOfJson
      [("analysis_result", "hello world")] "app.py" = [] ∧
    ("hello world" : String).length = 11 := by
  constructor
  · have hval : ResultParser.extractFromValue tier1 jsonLoads findingOfJson
        "hello world" "app.py" = [] := by
      simp only [ResultParser.extractFromValue, h]
      rfl
    rw [ResultParser.extract_findings_cons]
    simp [hval, ResultParser.extract_findings]
  · rfl

/-- C2 witness: the dead tier-3 evaluation at a concrete failing strict
parser. -/
theorem tier3_dead_code_witness :
    ((fun _ : String => (Except.error () : Except Unit Finding)) "hello world"
      = Except.error ()) ∧
    ResultParser.extract_findings
      (fun _ => Except.error ()) (fun _ => Except.error ())
      (fun _ => Except.error ())
      [("analysis_result", "hello world")] "app.py" = [] :=
  ⟨rfl, (tier3_dead_code _ _ _ rfl).1⟩

end ShieldPR

namespace ShieldPR.Difflib

/-- When the longest matching block over the full windows is empty,
the total matched size is zero. -/
theorem matchTotal_zero (a b : List Char) (alo ahi blo bhi : Nat)
    (h : (findLongestMatch a b alo ahi blo bhi).2.2 = 0) :
    matchTotal a b alo ahi blo bhi = 0 := by
  rw [matchTotal]
  split
  next i j k hm =>
    rw [hm] at h
    simp only at h
    simp [h]

/-- The ratio of two not-both-empty strings with no matching block is 0. -/
theorem descSimilarity_eq_zero (s1 s2 : String)
    (h : matchTotal s1.data s2.data 0 s1.data.length 0 s2.data.length = 0)
    (hlen : s1.data.length + s2.data.length ≠ 0) :
    descSimilarity s1 s2 = 0 := by
  simp only [descSimilarity]
  rw [if_neg hlen, h]
  norm_num

end ShieldPR.Difflib

namespace ShieldPR.SynthesisChain

open ShieldPR

/-- The `_deduplicate` scan passes through a block of findings none of
which is similar to an already-seen representative or to an earlier
finding of the block. -/
theorem dedup_scan_of_nonsimilar :
    ∀ (rest acc : List Finding),
      (∀ f ∈ rest, ∀ g ∈ acc, _are_similar f g = false) →
      rest.Pairwise (fun a b => _are_similar b a = false) →
      rest.foldl dedupStep (acc, acc) = (acc ++ rest, acc ++ rest) := by
  intro rest
  induction rest with
  | nil => intro acc _ _; simp
  | cons f rest ih =>
      intro acc hacc hpair
      have hfind : acc.find? (fun seen_finding => _are_similar f seen_finding)
          = none := by
        rw [List.find?_eq_none]
        intro g hg
        simp [hacc f (List.mem_cons_self _ _) g hg]
      have hstep : dedupStep (acc, acc) f = (acc ++ [f], acc ++ [f]) := by
        simp [dedupStep, hfind]
      rw [List.foldl_cons, hstep]
      have hpair' := (List.pairwise_cons.mp hpair)
      rw [ih (acc ++ [f]) ?_ hpair'.2]
      · simp
      · intro f' hf' g hg
        rcases List.mem_append.mp hg with hga | hgf
        · exact hacc f' (List.mem_cons_of_mem _ hf') g hga
        · rw [List.mem_singleton.mp hgf]
          exact hpair'.1 f' hf'

/-- Method `_deduplicate` leaves a list of pairwise non-similar findings
unchanged. -/
theorem deduplicate_eq_self_of_pairwise (m : List Finding)
    (hm : m.Pairwise (fun a b => _are_similar b a = false)) :
    _deduplicate m = m := by
  unfold _deduplicate
  cases m with
  | nil => simp
  | cons f rest =>
      rw [if_neg (by simp)]
      rw [dedup_scan_of_nonsimilar (f :: rest) [] (by simp) hm]
      simp

/-- C1 (amended): `_deduplicate` is idempotent on any input whose
deduplicated form is pairwise non-similar (in particular on any list of
pairwise non-similar findings); in general a severity-driven replacement
during the single scan can place a finding among the survivors that is
similar to a later survivor, and a second pass then merges further, so
idempotence does not hold unconditionally. -/
theorem deduplicate_idempotent_of_nonsimilar_output (l : List Finding)
    (h : (_deduplicate l).Pairwise (fun a b => _are_similar b a = false)) :
    _deduplicate (_deduplicate l) = _deduplicate l :=
  deduplicate_eq_self_of_pairwise _ h

end ShieldPR.SynthesisChain

namespace ShieldPR.SynthesisChain

/-- Evaluation of `_are_similar` on findings with equal taxonomy, nonzero
line numbers, and description similarity at most `0.8`: it reduces to the
within-5-lines test. -/
theorem are_similar_lines_eval (sev1 sev2 : Severity) (cat fp : String)
    (l1 l2 : Int) (d1 d2 : String) (sug1 sug2 snip1 snip2 : Option String)
    (h1 : l1 ≠ 0) (h2 : l2 ≠ 0)
    (hds : Difflib.descSimilarity d1 d2 ≤ 8/10) :
    _are_similar ⟨sev1, cat, fp, some l1, d1, sug1, snip1⟩
        ⟨sev2, cat, fp, some l2, d2, sug2, snip2⟩
      = decide ((l1 - l2).natAbs ≤ 5) := by
  simp only [_are_similar]
  rw [if_neg (by simp), if_neg (by simp)]
  rw [if_neg (not_lt.mpr hds)]
  have ht : (pyIntTruthy (some l1) && pyIntTruthy (some l2)) = true := by
    simp [pyIntTruthy, h1, h2]
  rw [if_pos ht]
  split_ifs with hle
  · simp [hle]
  · simp [hle]

/-- The three findings of the idempotence counterexample: mutually located
within the similarity relation non-transitively (lines 1, 10, 6 in one
category and file, with pairwise-dissimilar one-character descriptions). -/
def dupLow : Finding :=
  ⟨.LOW, "security", "app.py", some 1, "a", some "", none⟩

/-- Second counterexample finding, see `dupLow`. -/
def dupMedium : Finding :=
  ⟨.MEDIUM, "security", "app.py", some 10, "b", some "", none⟩

/-- Third counterexample finding, see `dupLow`. -/
def dupHigh : Finding :=
  ⟨.HIGH, "security", "app.py", some 6, "c", some "", none⟩

/-- Pairwise description similarities of the counterexample findings are
all 0. -/
theorem dup_ratio_zero :
    Difflib.descSimilarity "b" "a" = 0 ∧ Difflib.descSimilarity "c" "a" = 0 ∧
    Difflib.descSimilarity "b" "c" = 0 :=
  ⟨Difflib.descSimilarity_eq_zero _ _
      (Difflib.matchTotal_zero _ _ _ _ _ _ (by decide)) (by decide),
   Difflib.descSimilarity_eq_zero _ _
      (Difflib.matchTotal_zero _ _ _ _ _ _ (by decide)) (by decide),
   Difflib.descSimilarity_eq_zero _ _
      (Difflib.matchTotal_zero _ _ _ _ _ _ (by decide)) (by decide)⟩

/-- First pass of `_deduplicate` over the counterexample: the later
HIGH finding replaces the LOW one (lines 1 and 6 are within 5), and the
MEDIUM finding at line 10 stays (line 1 is 9 away). -/
theorem dedup_first_pass :
    _deduplicate [dupLow, dupMedium, dupHigh] = [dupHigh, dupMedium] := by
  obtain ⟨hba, hca, _⟩ := dup_ratio_zero
  have sYX : _are_similar dupMedium dupLow = false := by
    rw [show dupMedium = ⟨.MEDIUM, "security", "app.py", some 10, "b", some "", none⟩ from rfl,
        show dupLow = ⟨.LOW, "security", "app.py", some 1, "a", some "", none⟩ from rfl]
    rw [are_similar_lines_eval _ _ _ _ _ _ _ _ _ _ _ _ (by decide) (by decide)
      (by rw [hba]; norm_num)]
    decide
  have sZX : _are_similar dupHigh dupLow = true := by
    rw [show dupHigh = ⟨.HIGH, "security", "app.py", some 6, "c", some "", none⟩ from rfl,
        show dupLow = ⟨.LOW, "security", "app.py", some 1, "a", some "", none⟩ from rfl]
    rw [are_similar_lines_eval _ _ _ _ _ _ _ _ _ _ _ _ (by decide) (by decide)
      (by rw [hca]; norm_num)]
    decide
  simp only [_deduplicate]
  rw [if_neg (by simp)]
  simp only [List.foldl_cons, List.foldl_nil]
  rw [show dedupStep ([], []) dupLow = ([dupLow], [dupLow]) from by
    simp [dedupStep]]
  rw [show dedupStep ([dupLow], [dupLow]) dupMedium
      = ([dupLow, dupMedium], [dupLow, dupMedium]) from by
    simp [dedupStep, List.find?, sYX]]
  rw [show dedupStep ([dupLow, dupMedium], [dupLow, dupMedium]) dupHigh
      = ([dupHigh, dupMedium], [dupHigh, dupMedium]) from by
    simp only [dedupStep, List.find?, sZX]
    decide]

/-- Second pass of `_deduplicate` over the first pass's output: the
replacement moved the HIGH finding to line 6, within 5 lines of the
surviving MEDIUM finding at line 10, so the second pass drops the
latter. -/
theorem dedup_second_pass :
    _deduplicate [dupHigh, dupMedium] = [dupHigh] := by
  obtain ⟨_, _, hbc⟩ := dup_ratio_zero
  have sYZ : _are_similar dupMedium dupHigh = true := by
    rw [show dupMedium = ⟨.MEDIUM, "security", "app.py", some 10, "b", some "", none⟩ from rfl,
        show dupHigh = ⟨.HIGH, "security", "app.py", some 6, "c", some "", none⟩ from rfl]
    rw [are_similar_lines_eval _ _ _ _ _ _ _ _ _ _ _ _ (by decide) (by decide)
      (by rw [hbc]; norm_num)]
    decide
  simp only [_deduplicate]
  rw [if_neg (by simp)]
  simp only [List.foldl_cons, List.foldl_nil]
  rw [show dedupStep ([], []) dupHigh = ([dupHigh], [dupHigh]) from by
    simp [dedupStep]]
  rw [show dedupStep ([dupHigh], [dupHigh]) dupMedium = ([dupHigh], [dupHigh]) from by
    simp only [dedupStep, List.find?, sYZ]
    decide]

end ShieldPR.SynthesisChain

namespace ShieldPR

/-- C1 counterexample: `_deduplicate` is not idempotent.  On the list
`[dupLow (line 1), dupMedium (line 10), dupHigh (line 6)]` the first pass
returns `[dupHigh, dupMedium]` (the HIGH finding replaced the LOW one it
matched first), but a second pass merges `dupMedium` into `dupHigh`
(lines 6 and 10 are within 5) and returns `[dupHigh]`. -/
theorem deduplicate_not_idempotent :
    SynthesisChain._deduplicate (SynthesisChain._deduplicate
        [SynthesisChain.dupLow, SynthesisChain.dupMedium, SynthesisChain.dupHigh])
      ≠ SynthesisChain._deduplicate
        [SynthesisChain.dupLow, SynthesisChain.dupMedium, SynthesisChain.dupHigh] := by
  rw [SynthesisChain.dedup_first_pass, SynthesisChain.dedup_second_pass]
  decide

/-- C1 witness (for the amended idempotence): two findings in different
categories are not similar, the deduplicated list is pairwise non-similar,
and a second pass leaves it unchanged. -/
theorem deduplicate_idempotent_witness :
    (SynthesisChain._deduplicate
        [⟨.HIGH, "security", "app.py", some 3, "x", some "", none⟩,
         ⟨.LOW, "style", "app.py", some 3, "y", some "", none⟩]).Pairwise
      (fun a b => SynthesisChain._are_similar b a = false) ∧
    SynthesisChain._deduplicate (SynthesisChain._deduplicate
        [⟨.HIGH, "security", "app.py", some 3, "x", some "", none⟩,
         ⟨.LOW, "style", "app.py", some 3, "y", some "", none⟩])
      = SynthesisChain._deduplicate
        [⟨.HIGH, "security", "app.py", some 3, "x", some "", none⟩,
         ⟨.LOW, "style", "app.py", some 3, "y", some "", none⟩] :=
  ⟨by decide, SynthesisChain.deduplicate_idempotent_of_nonsimilar_output _ (by decide)⟩

end ShieldPR

namespace ShieldPR.SynthesisChain

open ShieldPR

/-- The composite-key comparison is transitive. -/
theorem findingKeyLE_trans (f g h : Finding) (hfg : findingKeyLE f g = true)
    (hgh : findingKeyLE g h = true) : findingKeyLE f h = true := by
  simp only [findingKeyLE, decide_eq_true_eq] at hfg hgh ⊢
  rcases hfg with hfg | ⟨hr1, hfg⟩
  · rcases hgh with hgh | ⟨hr2, _⟩
    · exact Or.inl (lt_trans hfg hgh)
    · exact Or.inl (hr2 ▸ hfg)
  · rcases hgh with hgh | ⟨hr2, hgh⟩
    · exact Or.inl (hr1 ▸ hgh)
    · refine Or.inr ⟨hr1.trans hr2, ?_⟩
      rcases hfg with hfg | ⟨hc1, hfg⟩
      · rcases hgh with hgh | ⟨hc2, _⟩
        · exact Or.inl (lt_trans hfg hgh)
        · exact Or.inl (hc2 ▸ hfg)
      · rcases hgh with hgh | ⟨hc2, hgh⟩
        · exact Or.inl (hc1 ▸ hgh)
        · exact Or.inr ⟨hc1.trans hc2, le_trans hfg hgh⟩

/-- The composite-key comparison is total. -/
theorem findingKeyLE_total (f g : Finding) :
    (findingKeyLE f g || findingKeyLE g f) = true := by
  simp only [findingKeyLE, Bool.or_eq_true, decide_eq_true_eq]
  rcases Nat.lt_trichotomy (SEVERITY_ORDER f.severity)
      (SEVERITY_ORDER g.severity) with hr | hr | hr
  · exact Or.inl (Or.inl hr)
  · rcases lt_trichotomy f.category g.category with hc | hc | hc
    · exact Or.inl (Or.inr ⟨hr, Or.inl hc⟩)
    · rcases le_total f.file_path g.file_path with hp | hp
      · exact Or.inl (Or.inr ⟨hr, Or.inr ⟨hc, hp⟩⟩)
      · exact Or.inr (Or.inr ⟨hr.symm, Or.inr ⟨hc.symm, hp⟩⟩)
    · exact Or.inr (Or.inr ⟨hr.symm, Or.inl hc⟩)
  · exact Or.inr (Or.inl hr)

/-- Findings with equal composite keys compare `≤` in both directions. -/
theorem findingKeyLE_of_sortKey_eq {f g : Finding}
    (h : sortKey f = sortKey g) : findingKeyLE f g = true := by
  obtain ⟨h1, h2, h3⟩ : SEVERITY_ORDER f.severity = SEVERITY_ORDER g.severity ∧
      f.category = g.category ∧ f.file_path = g.file_path := by
    simpa [sortKey, Prod.ext_iff] using h
  simp only [findingKeyLE, decide_eq_true_eq]
  exact Or.inr ⟨h1, Or.inr ⟨h2, le_of_eq h3⟩⟩

end ShieldPR.SynthesisChain

namespace ShieldPR

/-- C7: `SEVERITY_ORDER` maps HIGH, MEDIUM, LOW to 0, 1, 2, and
`_prioritize` returns a permutation of its input that is sorted
non-decreasing by the composite key
`(severity_rank, category, file_path)` and stable: for every key value the
sublist of findings carrying that key is returned in its original order. -/
theorem prioritize_sorted_stable :
    (SynthesisChain.SEVERITY_ORDER .HIGH = 0 ∧
     SynthesisChain.SEVERITY_ORDER .MEDIUM = 1 ∧
     SynthesisChain.SEVERITY_ORDER .LOW = 2) ∧
    ∀ l : List Finding,
      (SynthesisChain._prioritize l).Perm l ∧
      (SynthesisChain._prioritize l).Pairwise
        (fun f g => SynthesisChain.findingKeyLE f g = true) ∧
      (∀ k : ℕ × String × String,
        (SynthesisChain._prioritize l).filter
            (fun f => SynthesisChain.sortKey f = k)
          = l.filter (fun f => SynthesisChain.sortKey f = k)) := by
  refine ⟨⟨rfl, rfl, rfl⟩, fun l => ⟨?_, ?_, ?_⟩⟩
  · exact List.mergeSort_perm l SynthesisChain.findingKeyLE
  · exact List.sorted_mergeSort
      (fun a b c => SynthesisChain.findingKeyLE_trans a b c)
      (fun a b => SynthesisChain.findingKeyLE_total a b) l
  · intro k
    have hA : (l.filter (fun f => SynthesisChain.sortKey f = k)).Pairwise
        (fun f g => SynthesisChain.findingKeyLE f g = true) := by
      apply List.pairwise_of_forall_mem_list
      intro a ha b hb
      have hak := (List.mem_filter.mp ha).2
      have hbk := (List.mem_filter.mp hb).2
      simp only [decide_eq_true_eq] at hak hbk
      exact SynthesisChain.findingKeyLE_of_sortKey_eq (hak.trans hbk.symm)
    have hsub : List.Sublist
        (l.filter (fun f => SynthesisChain.sortKey f = k)) l :=
      List.filter_sublist l
    have h1 : List.Sublist (l.filter (fun f => SynthesisChain.sortKey f = k))
        (SynthesisChain._prioritize l) :=
      List.sublist_mergeSort
        (fun a b c => SynthesisChain.findingKeyLE_trans a b c)
        (fun a b => SynthesisChain.findingKeyLE_total a b) hA hsub
    have h2 : List.Sublist (l.filter (fun f => SynthesisChain.sortKey f = k))
        ((SynthesisChain._prioritize l).filter
            (fun f => SynthesisChain.sortKey f = k)) := by
      have h3 := h1.filter (fun f => decide (SynthesisChain.sortKey f = k))
      rwa [List.filter_eq_self.mpr
        (fun a ha => (List.mem_filter.mp ha).2)] at h3
    have hlen : ((SynthesisChain._prioritize l).filter
          (fun f => SynthesisChain.sortKey f = k)).length
        = (l.filter (fun f => SynthesisChain.sortKey f = k)).length :=
      ((List.mergeSort_perm l SynthesisChain.findingKeyLE).filter _).length_eq
    exact (h2.eq_of_length hlen.symm).symm

end ShieldPR

namespace ShieldPR.SynthesisChain

open ShieldPR

/-- Membership after an in-place first-occurrence replacement. -/
theorem mem_replaceFirst {l : List Finding} {old new x : Finding}
    (h : x ∈ replaceFirst l old new) : x ∈ l ∨ x = new := by
  induction l with
  | nil => simp [replaceFirst] at h
  | cons y ys ih =>
      by_cases hy : y = old
      · simp only [replaceFirst, if_pos hy] at h
        rcases List.mem_cons.mp h with h | h
        · exact Or.inr h
        · exact Or.inl (List.mem_cons_of_mem _ h)
      · simp only [replaceFirst, if_neg hy] at h
        rcases List.mem_cons.mp h with h | h
        · exact Or.inl (h ▸ List.mem_cons_self _ _)
        · rcases ih h with h | h
          · exact Or.inl (List.mem_cons_of_mem _ h)
          · exact Or.inr h

/-- Every element of the scan state after folding a block of findings was
already in the state or comes from the block. -/
theorem dedup_foldl_mem :
    ∀ (rest : List Finding) (st : List Finding × List Finding) (f : Finding),
      (f ∈ (rest.foldl dedupStep st).1 ∨ f ∈ (rest.foldl dedupStep st).2) →
      f ∈ st.1 ∨ f ∈ st.2 ∨ f ∈ rest := by
  intro rest
  induction rest with
  | nil =>
      intro st f h
      rw [List.foldl_nil] at h
      exact h.imp id Or.inl
  | cons x xs ih =>
      intro st f h
      rw [List.foldl_cons] at h
      have hstep : ∀ g, (g ∈ (dedupStep st x).1 ∨ g ∈ (dedupStep st x).2) →
          g ∈ st.1 ∨ g ∈ st.2 ∨ g = x := by
        intro g hg
        unfold dedupStep at hg
        rcases hfind : st.2.find? (fun sf => _are_similar x sf) with _ | sf
        · rw [hfind] at hg
          simp only at hg
          rcases hg with hg | hg
          · rcases List.mem_append.mp hg with hg | hg
            · exact Or.inl hg
            · exact Or.inr (Or.inr (List.mem_singleton.mp hg))
          · rcases List.mem_append.mp hg with hg | hg
            · exact Or.inr (Or.inl hg)
            · exact Or.inr (Or.inr (List.mem_singleton.mp hg))
        · rw [hfind] at hg
          simp only at hg
          by_cases hsev : SEVERITY_ORDER x.severity < SEVERITY_ORDER sf.severity
          · rw [if_pos hsev] at hg
            rcases hg with hg | hg
            · rcases mem_replaceFirst hg with hg | hg
              · exact Or.inl hg
              · exact Or.inr (Or.inr hg)
            · rcases mem_replaceFirst hg with hg | hg
              · exact Or.inr (Or.inl hg)
              · exact Or.inr (Or.inr hg)
          · rw [if_neg hsev] at hg
            exact hg.imp id Or.inl
      rcases ih (dedupStep st x) f h with h1 | h1 | h1
      · rcases hstep f (Or.inl h1) with h2 | h2 | h2
        · exact Or.inl h2
        · exact Or.inr (Or.inl h2)
        · exact Or.inr (Or.inr (h2 ▸ List.mem_cons_self _ _))
      · rcases hstep f (Or.inr h1) with h2 | h2 | h2
        · exact Or.inl h2
        · exact Or.inr (Or.inl h2)
        · exact Or.inr (Or.inr (h2 ▸ List.mem_cons_self _ _))
      · exact Or.inr (Or.inr (List.mem_cons_of_mem _ h1))

/-- Method `_deduplicate` only ever returns findings of its input list. -/
theorem mem_deduplicate {l : List Finding} {f : Finding}
    (h : f ∈ _deduplicate l) : f ∈ l := by
  unfold _deduplicate at h
  by_cases hl : l.isEmpty
  · rw [if_pos hl] at h
    simp at h
  · rw [if_neg hl] at h
    rcases dedup_foldl_mem l ([], []) f (Or.inl h) with h1 | h1 | h1
    · simp at h1
    · simp at h1
    · exact h1

end ShieldPR.SynthesisChain

namespace ShieldPR

/-- C10: every finding returned by `synthesize` is (field for field) one of
the findings of its two inputs — synthesis reorders, drops via
deduplication, and replaces representatives by other input findings, but
never creates or mutates a finding. -/
theorem synthesize_no_new_findings (platform_result universal_result :
    SynthesisChain.ReviewResult) (f : Finding)
    (hf : f ∈ (SynthesisChain.synthesize platform_result universal_result).findings) :
    f ∈ platform_result.findings ++ universal_result.findings := by
  have hf' : f ∈ SynthesisChain._prioritize (SynthesisChain._deduplicate
      (platform_result.findings ++ universal_result.findings)) := hf
  have h1 : f ∈ SynthesisChain._deduplicate
      (platform_result.findings ++ universal_result.findings) :=
    (List.mergeSort_perm _ SynthesisChain.findingKeyLE).mem_iff.mp hf'
  exact SynthesisChain.mem_deduplicate h1

/-- C10 witness: the sole platform finding of a concrete synthesis is a
finding of the inputs. -/
theorem synthesize_no_new_findings_witness :
    (⟨.HIGH, "security", "a.py", some 1, "x", some "", none⟩ : Finding)
      ∈ (SynthesisChain.synthesize
          ⟨"android", [⟨.HIGH, "security", "a.py", some 1, "x", some "", none⟩],
            "platform summary", 9/10⟩
          ⟨"universal", [], "universal summary", 6/10⟩).findings ∧
    (⟨.HIGH, "security", "a.py", some 1, "x", some "", none⟩ : Finding)
      ∈ (⟨"android", [⟨.HIGH, "security", "a.py", some 1, "x", some "", none⟩],
            "platform summary", (9/10 : ℚ)⟩ : SynthesisChain.ReviewResult).findings
        ++ (⟨"universal", [], "universal summary", (6/10 : ℚ)⟩ :
            SynthesisChain.ReviewResult).findings := by
  have hf : (⟨.HIGH, "security", "a.py", some 1, "x", some "", none⟩ : Finding)
      ∈ (SynthesisChain.synthesize
          ⟨"android", [⟨.HIGH, "security", "a.py", some 1, "x", some "", none⟩],
            "platform summary", 9/10⟩
          ⟨"universal", [], "universal summary", 6/10⟩).findings := by
    simp [SynthesisChain.synthesize, SynthesisChain._prioritize,
      SynthesisChain._deduplicate, SynthesisChain.dedupStep, List.mergeSort]
  exact ⟨hf, synthesize_no_new_findings _ _ _ hf⟩

end ShieldPR
